import Mathlib

/-
Verification of the lyse client-side data-access layer (lyse/__init__.py).

The HDF5 file that backs a Run is modelled as a tree of groups and datasets,
each carrying attributes.  Every accessor of the Run/Sequence layer is
translated from the Python source; fallible operations return Except, where
an error carries the message together with the state of the store at the
moment the exception was raised (the Python code mutates the file in place,
so an exception mid-operation leaves the file in whatever state preceded the
raise).
-/

set_option autoImplicit false

namespace Lyse

universe u v

/-- Association-list lookup of the first entry with the given key (the model of
a Python dict / h5py attribute manager keyed access). -/
def alookup {α : Type u} {β : Type v} [DecidableEq α] : List (α × β) → α → Option β
  | [], _ => none
  | (k, v) :: rest, a => if k = a then some v else alookup rest a

/-- Association-list update: replaces the first entry with the given key, or
appends a new entry at the end (the model of dict/attribute assignment,
which keeps insertion order in Python). -/
def aset {α : Type u} {β : Type v} [DecidableEq α] : List (α × β) → α → β → List (α × β)
  | [], a, b => [(a, b)]
  | (k, v) :: rest, a, b => if k = a then (a, b) :: rest else (k, v) :: aset rest a b

/-- Association-list removal of the first entry with the given key (the model
of `del mapping[key]`). -/
def aeraseKey {α : Type u} {β : Type v} [DecidableEq α] : List (α × β) → α → List (α × β)
  | [], _ => []
  | (k, v) :: rest, a => if k = a then rest else (k, v) :: aeraseKey rest a

/-- Python values that appear as HDF5 attribute values, dataset payloads and
untyped arguments in the source.  tup models a two-element tuple (used by
save_results_dict in uncertainties mode), arr an array payload. -/
inductive PyVal where
  | int (n : Int)
  | str (s : String)
  | bool (b : Bool)
  | arr (xs : List Int)
  | tup (a b : PyVal)
deriving DecidableEq

/-- Python truthiness for the values of the model.  Lists are truthy when
nonempty; the labscript expansion/units attributes that reach this test in
the source are strings. -/
def truthy : PyVal → Bool
  | PyVal.int n => n != 0
  | PyVal.str s => !s.isEmpty
  | PyVal.bool b => b
  | PyVal.arr xs => !xs.isEmpty
  | PyVal.tup _ _ => true

/-- Containment of one character list in another at any position. -/
def infixOfCL (pat : List Char) : List Char → Bool
  | [] => pat.isEmpty
  | c :: cs => pat.isPrefixOf (c :: cs) || infixOfCL pat cs

/-- Python substring containment, the model of the expression sub in s. -/
def pyIn (sub s : String) : Bool :=
  infixOfCL sub.toList s.toList

/-- Python str.startswith. -/
def pyStartsWith (s pat : String) : Bool :=
  pat.toList.isPrefixOf s.toList

/-- Removes the first occurrence of pat from the character list, returning
none when pat does not occur. -/
def dropFirstInfix (pat : List Char) : List Char → Option (List Char)
  | [] => none
  | c :: cs =>
    if pat.isPrefixOf (c :: cs) then some ((c :: cs).drop pat.length)
    else (dropFirstInfix pat cs).map (fun l => c :: l)

/-- Python s.replace(pat, empty, 1): removes the first occurrence of pat. -/
def replaceFirst (s pat : String) : String :=
  match dropFirstInfix pat.toList s.toList with
  | some l => String.mk l
  | none => s

/-- Splits a character list at every slash, accumulating the current
component in reverse. -/
def splitSlashAux : List Char → List Char → List String
  | [], cur => [String.mk cur.reverse]
  | c :: cs, cur =>
    if c = '/' then String.mk cur.reverse :: splitSlashAux cs []
    else splitSlashAux cs (c :: cur)

/-- Splits a slash-separated HDF5 path string into its nonempty components,
the way h5py resolves a path-like index. -/
def parsePath (s : String) : List String :=
  (splitSlashAux s.toList []).filter (fun t => !t.isEmpty)

/-- Python falsiness of an optional string argument: None and the empty
string are falsy (the source tests if not group). -/
def optFalsy : Option String → Bool
  | none => true
  | some s => s.isEmpty

/-- A node of the HDF5 file tree: a group with attributes and named children
kept in insertion order, or a dataset with attributes and a payload.  A whole
file is the root group. -/
inductive H5Node where
  | group (attrs : List (String × PyVal)) (children : List (String × H5Node))
  | dataset (attrs : List (String × PyVal)) (data : PyVal)

/-- Attributes of a node, group or dataset alike. -/
def H5Node.attrsOf : H5Node → List (String × PyVal)
  | H5Node.group a _ => a
  | H5Node.dataset a _ => a

/-- Resolves a component path from a node, the model of h5py item access:
descends through groups; a missing link or a dataset met before the end of
the path yields none (a KeyError in h5py). -/
def H5Node.get : H5Node → List String → Option H5Node
  | nd, [] => some nd
  | H5Node.group _ ch, n :: rest =>
    match alookup ch n with
    | some c => H5Node.get c rest
    | none => none
  | H5Node.dataset _ _, _ :: _ => none

/-- Applies a transformation to the node at the given path, leaving the tree
unchanged when the path does not resolve. -/
def H5Node.updAt : H5Node → List String → (H5Node → H5Node) → H5Node
  | nd, [], h => h nd
  | H5Node.group a ch, n :: rest, h =>
    match alookup ch n with
    | some c => H5Node.group a (aset ch n (H5Node.updAt c rest h))
    | none => H5Node.group a ch
  | H5Node.dataset a d, _ :: _, _ => H5Node.dataset a d

/-- Sets one attribute on a node (the model of attribute assignment through
set_attributes / the attrs manager). -/
def H5Node.withAttr (k : String) (v : PyVal) : H5Node → H5Node
  | H5Node.group a ch => H5Node.group (aset a k v) ch
  | H5Node.dataset a d => H5Node.dataset (aset a k v) d

/-- Removes the named child of a group (the model of del group[name]). -/
def H5Node.removeChild (name : String) : H5Node → H5Node
  | H5Node.group a ch => H5Node.group a (aeraseKey ch name)
  | H5Node.dataset a d => H5Node.dataset a d

/-- Appends a named child to a group. -/
def H5Node.appendChild (name : String) (c : H5Node) : H5Node → H5Node
  | H5Node.group a ch => H5Node.group a (ch ++ [(name, c)])
  | H5Node.dataset a d => H5Node.dataset a d

/-- The model of group.create_dataset(name, data): fails when the parent path
does not resolve to a group or the name is already taken. -/
def H5Node.createDataset (f : H5Node) (p : List String) (name : String) (data : PyVal) :
    Option H5Node :=
  match f.get p with
  | some (H5Node.group _ ch) =>
    if (alookup ch name).isSome then none
    else some (f.updAt p (H5Node.appendChild name (H5Node.dataset [] data)))
  | _ => none

/-- The model of h5py create_group with a path: creates missing intermediate
groups, fails when the final group already exists or a dataset blocks the
path. -/
def H5Node.createGroup : H5Node → List String → Option H5Node
  | _, [] => none
  | H5Node.group a ch, [n] =>
    match alookup ch n with
    | some _ => none
    | none => some (H5Node.group a (ch ++ [(n, H5Node.group [] [])]))
  | H5Node.group a ch, n :: m :: rest =>
    match alookup ch n with
    | some (H5Node.dataset _ _) => none
    | some (H5Node.group b ch2) =>
      match H5Node.createGroup (H5Node.group b ch2) (m :: rest) with
      | some c => some (H5Node.group a (aset ch n c))
      | none => none
    | none =>
      match H5Node.createGroup (H5Node.group [] []) (m :: rest) with
      | some c => some (H5Node.group a (ch ++ [(n, c)]))
      | none => none
  | H5Node.dataset _ _, _ :: _ => none

mutual

/-- The objects visited by h5py visititems called on this node: every group
and dataset strictly below it, in preorder, paired with its slash-joined
relative path. -/
def H5Node.visits : H5Node → List (String × H5Node)
  | H5Node.group _ ch => visitsList ch
  | H5Node.dataset _ _ => []

/-- Preorder walk of a child list, used by H5Node.visits. -/
def visitsList : List (String × H5Node) → List (String × H5Node)
  | [] => []
  | (n, x) :: rest =>
    ((n, x) :: (H5Node.visits x).map (fun p => (n ++ "/" ++ p.1, p.2))) ++ visitsList rest

end

/-- The Run object state: the backing file path, the read-only flag and the
analysis group name (lyse/__init__.py lines 168-196).  The file contents live
outside the object and are passed to each accessor, mirroring the scoped
open/close discipline of the source. -/
structure Run where
  h5_path : String
  no_write : Bool
  group : String
deriving DecidableEq

/-- The process-wide pending-update state _updated_data: file path to a map
from (toplevel group, result name) to value. -/
abbrev Upd := List (String × List ((String × String) × PyVal))

/-- The message of the read-only exception raised at the top of save_result
and save_result_array. -/
def readOnlyMsg : String :=
  "This run is read-only. You cannot save results to runs through a Sequence object."

/-- The message of the existing-attribute exception of save_result. -/
def attrExistsMsg (name group : String) : String :=
  "Attribute " ++ name ++ " exists in group " ++ group ++ ". Use overwrite=True to overwrite."

/-- The message of the existing-dataset exception of save_result_array.  In
the source the % formatting binds before the string concatenation, so the
placeholder receives the group and the name is appended after the sentence. -/
def dsExistsMsg (group name : String) : String :=
  "Dataset " ++ group ++ " exists. Use overwrite=True to overwrite." ++ "/" ++ name

/-- The group string save_result and save_result_array operate on: the
active-group default results/ + self.group when the argument is falsy, the
argument itself otherwise (lines 279-281 and 310-312). -/
def resolveGroupStr (run : Run) (gArg : Option String) : String :=
  if optFalsy gArg then "results/" ++ run.group else gArg.getD ""

/-- Lines 291-292 of the source: make sure _updated_data has an entry for the
file path, initialising it to an empty dict when absent. -/
def ensureKey (u : Upd) (p : String) : Upd :=
  if (alookup u p).isSome then u else aset u p []

/-- Run._create_group_if_not_exists (lines 198-210): a read-only open tests
whether the group exists under location; only when it is absent is the file
reopened in write mode and the group created.  The Nat result counts the
write-mode opens of the call. -/
def Run.create_group_if_not_exists (f : H5Node) (location groupname : String) :
    Except String (H5Node × Nat) :=
  match f.get (parsePath location) with
  | none => .error ("KeyError: " ++ location)
  | some loc =>
    if (loc.get (parsePath groupname)).isSome then
      .ok (f, 0)
    else
      match f.createGroup (parsePath location ++ parsePath groupname) with
      | some f2 => .ok (f2, 1)
      | none => .error ("unable to create group " ++ groupname)

/-- Run.get_trace (lines 234-239): resolves data, then traces, then the named
trace, and returns the t and values datasets of the trace; each missing step
raises. -/
def Run.get_trace (f : H5Node) (name : String) : Except String (PyVal × PyVal) :=
  match f.get ["data"] with
  | none => .error "KeyError: data"
  | some dn =>
    match dn.get ["traces"] with
    | none => .error "KeyError: traces"
    | some tn =>
      match tn.get [name] with
      | none => .error ("The trace " ++ name ++ " doesn not exist")
      | some tr =>
        match tr.get ["t"] with
        | none => .error "KeyError: t"
        | some (H5Node.group _ _) => .error "ValueError: t is a group"
        | some (H5Node.dataset _ t) =>
          match tr.get ["values"] with
          | none => .error "KeyError: values"
          | some (H5Node.group _ _) => .error "ValueError: values is a group"
          | some (H5Node.dataset _ v) => .ok (t, v)

/-- Run.get_result_array (lines 241-247): requires results, then the group,
then the named dataset, raising a descriptive error at the first missing
step. -/
def Run.get_result_array (f : H5Node) (group name : String) : Except String PyVal :=
  match f.get ["results"] with
  | none => .error "KeyError: results"
  | some res =>
    if (res.get (parsePath group)).isSome then
      match res.get (parsePath group ++ [name]) with
      | some (H5Node.dataset _ d) => .ok d
      | some (H5Node.group _ _) => .error ("ValueError: " ++ name ++ " is a group")
      | none => .error ("The result array " ++ name ++ " doesn not exist")
    else .error ("The result group " ++ group ++ " doesn not exist")

/-- Run.save_result (lines 267-295).  spinning is the module flag
spinning_top and upd the module state _updated_data; an error carries the
file and pending-update state at the moment of the raise. -/
def Run.save_result (spinning : Bool) (upd : Upd) (run : Run) (f : H5Node)
    (name : String) (value : PyVal) (gArg : Option String) (overwrite : Bool) :
    Except (String × H5Node × Upd) (H5Node × Upd) :=
  if run.no_write then .error (readOnlyMsg, f, upd)
  else
    let g := resolveGroupStr run gArg
    let created : Option H5Node :=
      if optFalsy gArg then some f
      else if (f.get (parsePath g)).isSome then some f
      else f.createGroup (parsePath g)
    match created with
    | none => .error ("unable to create group " ++ g, f, upd)
    | some f1 =>
      match f1.get (parsePath g) with
      | none => .error ("KeyError: " ++ g, f1, upd)
      | some nd =>
        if (alookup nd.attrsOf name).isSome && !overwrite then
          .error (attrExistsMsg name g, f1, upd)
        else
          let f2 := f1.updAt (parsePath g) (H5Node.withAttr name value)
          if spinning then
            let u1 := ensureKey upd run.h5_path
            if pyStartsWith g "results" then
              let top := replaceFirst g "results/"
              let inner := (alookup u1 run.h5_path).getD []
              .ok (f2, aset u1 run.h5_path (aset inner (top, name) value))
            else .ok (f2, u1)
          else .ok (f2, upd)

/-- Run.save_result_array (lines 297-327): writes one dataset under the
resolved group; an existing dataset is deleted first when overwrite is set
(optionally keeping its attributes for reapplication), and is an error
otherwise. -/
def Run.save_result_array (run : Run) (f : H5Node) (name : String) (data : PyVal)
    (gArg : Option String) (overwrite keep_attrs : Bool) :
    Except (String × H5Node) H5Node :=
  if run.no_write then .error (readOnlyMsg, f)
  else
    let g := resolveGroupStr run gArg
    let created : Option H5Node :=
      if optFalsy gArg then some f
      else if (f.get (parsePath g)).isSome then some f
      else f.createGroup (parsePath g)
    match created with
    | none => .error ("unable to create group " ++ g, f)
    | some f1 =>
      match f1.get (parsePath g) with
      | none => .error ("KeyError: " ++ g, f1)
      | some (H5Node.dataset _ _) => .error ("TypeError: " ++ g ++ " is a dataset", f1)
      | some (H5Node.group _ ch) =>
        match alookup ch name with
        | some child =>
          if overwrite then
            let A := if keep_attrs then child.attrsOf else []
            let f2 := f1.updAt (parsePath g) (H5Node.removeChild name)
            match f2.createDataset (parsePath g) name data with
            | some f3 =>
              .ok (A.foldl (fun acc kv =>
                acc.updAt (parsePath g ++ [name]) (H5Node.withAttr kv.1 kv.2)) f3)
            | none => .error ("unable to create dataset " ++ name, f2)
          else .error (dsExistsMsg g name, f1)
        | none =>
          match f1.createDataset (parsePath g) name data with
          | some f3 => .ok f3
          | none => .error ("unable to create dataset " ++ name, f1)

/-- Python slicing args[::2], the even-indexed elements. -/
def takeEven {α : Type u} : List α → List α
  | [] => []
  | [a] => [a]
  | a :: _ :: r => a :: takeEven r

/-- Python slicing args[1::2], the odd-indexed elements. -/
def takeOdd {α : Type u} : List α → List α
  | [] => []
  | [_] => []
  | _ :: b :: r => b :: takeOdd r

/-- zip(args[::2], args[1::2]), the name/value pairing used by save_results
and save_result_arrays; zip stops at the shorter list. -/
def zipPairs {α : Type u} (l : List α) : List (α × α) :=
  (takeEven l).zip (takeOdd l)

/-- The loop body of Run.save_results (lines 346-350): one save_result call
per pair, stopping at the first raise.  A non-string name would reach h5py
and fail there, after the read-only check of save_result has fired. -/
def saveResultsGo (spinning : Bool) (run : Run) (gArg : Option String) (ow : Bool) :
    List (PyVal × PyVal) → H5Node × Upd → Except (String × H5Node × Upd) (H5Node × Upd)
  | [], st => .ok st
  | (n, v) :: rest, (f, upd) =>
    match n with
    | PyVal.str s =>
      match Run.save_result spinning upd run f s v gArg ow with
      | .error e => .error e
      | .ok st => saveResultsGo spinning run gArg ow rest st
    | _ =>
      if run.no_write then .error (readOnlyMsg, f, upd)
      else .error ("TypeError: attribute name must be a string", f, upd)

/-- Run.save_results (lines 341-350): pairs the positional arguments and
applies save_result to each pair in order. -/
def Run.save_results (spinning : Bool) (upd : Upd) (run : Run) (f : H5Node)
    (args : List PyVal) (gArg : Option String) (ow : Bool) :
    Except (String × H5Node × Upd) (H5Node × Upd) :=
  saveResultsGo spinning run gArg ow (zipPairs args) (f, upd)

/-- The loop body of Run.save_result_arrays (lines 365-368). -/
def saveResultArraysGo (run : Run) (gArg : Option String) (ow ka : Bool) :
    List (PyVal × PyVal) → H5Node → Except (String × H5Node) H5Node
  | [], f => .ok f
  | (n, v) :: rest, f =>
    match n with
    | PyVal.str s =>
      match Run.save_result_array run f s v gArg ow ka with
      | .error e => .error e
      | .ok f2 => saveResultArraysGo run gArg ow ka rest f2
    | _ =>
      if run.no_write then .error (readOnlyMsg, f)
      else .error ("TypeError: dataset name must be a string", f)

/-- Run.save_result_arrays (lines 360-368): pairs the positional arguments
and applies save_result_array to each pair in order. -/
def Run.save_result_arrays (run : Run) (f : H5Node) (args : List PyVal)
    (gArg : Option String) (ow ka : Bool) : Except (String × H5Node) H5Node :=
  saveResultArraysGo run gArg ow ka (zipPairs args) f

/-- The loop body of Run.save_results_dict (lines 352-358): in uncertainties
mode the value is unpacked as a pair before save_result runs, so a
non-indexable value raises before the read-only check. -/
def saveResultsDictGo (spinning : Bool) (run : Run) (unc : Bool) (gArg : Option String)
    (ow : Bool) :
    List (String × PyVal) → H5Node × Upd → Except (String × H5Node × Upd) (H5Node × Upd)
  | [], st => .ok st
  | (name, v) :: rest, (f, upd) =>
    if unc then
      match v with
      | PyVal.tup a b =>
        match Run.save_result spinning upd run f name a gArg ow with
        | .error e => .error e
        | .ok (f1, u1) =>
          match Run.save_result spinning u1 run f1 ("u_" ++ name) b gArg ow with
          | .error e => .error e
          | .ok st => saveResultsDictGo spinning run unc gArg ow rest st
      | _ => .error ("TypeError: value is not subscriptable", f, upd)
    else
      match Run.save_result spinning upd run f name v gArg ow with
      | .error e => .error e
      | .ok st => saveResultsDictGo spinning run unc gArg ow rest st

/-- Run.save_results_dict (lines 352-358). -/
def Run.save_results_dict (spinning : Bool) (upd : Upd) (run : Run) (f : H5Node)
    (d : List (String × PyVal)) (unc : Bool) (gArg : Option String) (ow : Bool) :
    Except (String × H5Node × Upd) (H5Node × Upd) :=
  saveResultsDictGo spinning run unc gArg ow d (f, upd)

/-- The dict-filling body of the append_expansion callback (lines 451-456):
keeps the truthy attribute values of a visited object. -/
def collectTruthy (acc : List (String × PyVal)) (p : String × H5Node) :
    List (String × PyVal) :=
  p.2.attrsOf.foldl (fun a kv => if truthy kv.2 then aset a kv.1 kv.2 else a) acc

/-- The dict-filling body of the append_units callback (lines 463-467): keeps
every attribute value of a visited object. -/
def collectAll (acc : List (String × PyVal)) (p : String × H5Node) :
    List (String × PyVal) :=
  p.2.attrsOf.foldl (fun a kv => aset a kv.1 kv.2) acc

/-- Run.get_globals_expansion (lines 449-459): visititems over the globals
group, collecting the truthy attributes of every object whose relative path
contains the substring expansion. -/
def Run.get_globals_expansion (f : H5Node) : Except String (List (String × PyVal)) :=
  match f.get ["globals"] with
  | none => .error "KeyError: globals"
  | some g =>
    .ok (g.visits.foldl
      (fun acc p => if pyIn "expansion" p.1 then collectTruthy acc p else acc) [])

/-- Run.get_units (lines 461-470): visititems over the globals group,
collecting every attribute of every object whose relative path contains the
substring units. -/
def Run.get_units (f : H5Node) : Except String (List (String × PyVal)) :=
  match f.get ["globals"] with
  | none => .error "KeyError: globals"
  | some g =>
    .ok (g.visits.foldl
      (fun acc p => if pyIn "units" p.1 then collectAll acc p else acc) [])

/-- Sequence.get_trace (lines 512-513): the dict comprehension calls
Run.get_trace member by member; the first raise propagates. -/
def Sequence.get_trace (runs : List (String × H5Node)) (name : String) :
    Except String (List (String × (PyVal × PyVal))) :=
  match runs with
  | [] => .ok []
  | (p, f) :: rest =>
    match Run.get_trace f name with
    | .error e => .error e
    | .ok tv =>
      match Sequence.get_trace rest name with
      | .error e => .error e
      | .ok xs => .ok ((p, tv) :: xs)

/-- Arguments of the remote dataframe fetch, one constructor per Python type
the validation of data distinguishes. -/
inductive PyArg where
  | none
  | int (n : Int)
  | str (s : String)
  | dict (kvs : List (String × String))
deriving DecidableEq

/-- The single-quote character, written by code point. -/
def squote : String :=
  String.singleton (Char.ofNat 39)

/-- A model of the external shlex.quote as used on the repr of
filter_kwargs: wraps the text in single quotes. -/
def shlexQuote (s : String) : String :=
  squote ++ s ++ squote

/-- A model of the external builtin repr on a string-to-string dict. -/
def reprDict (kvs : List (String × String)) : String :=
  "\x7b" ++ String.intercalate ", " (kvs.map (fun kv => kv.1 ++ ": " ++ kv.2)) ++ "\x7d"

/-- The remote branch of data (lines 130-146): builds the textual
get_dataframe command, validating n_sequences and filter_kwargs before the
zmq_get transport call; ok carries the command handed to the transport,
error means a ValueError was raised with no network round-trip. -/
def data_fetch (n_sequences filter_kwargs : PyArg) : Except String String :=
  let base := ["get_dataframe"]
  let step1 : Except String (List String) :=
    match n_sequences with
    | PyArg.none => .ok base
    | PyArg.int k =>
      if 0 ≤ k then .ok (base ++ ["--n_sequences " ++ toString k])
      else .error "ValueError: n_sequences must be None or an integer greater than 0"
    | _ => .error "ValueError: n_sequences must be None or an integer greater than 0"
  match step1 with
  | .error e => .error e
  | .ok cmds =>
    match filter_kwargs with
    | PyArg.none => .ok (String.intercalate " " cmds)
    | PyArg.dict d =>
      .ok (String.intercalate " " (cmds ++ ["--filter_kwargs " ++ shlexQuote (reprDict d)]))
    | _ => .error "ValueError: filter must be None or a dictionary"

/-- Spec-side restatement of get_globals_expansion, following the words of
the specification: walk every group and dataset under globals, keep exactly
the objects whose path contains the substring expansion, and collect their
truthy attribute values. -/
def expansionSpec (f : H5Node) : Except String (List (String × PyVal)) :=
  match f.get ["globals"] with
  | none => .error "KeyError: globals"
  | some g =>
    .ok ((g.visits.filter (fun p => pyIn "expansion" p.1)).foldl collectTruthy [])

/-- Spec-side restatement of get_units, following the words of the
specification: walk every group and dataset under globals, keep exactly the
objects whose path contains the substring units, and collect every attribute
value. -/
def unitsSpec (f : H5Node) : Except String (List (String × PyVal)) :=
  match f.get ["globals"] with
  | none => .error "KeyError: globals"
  | some g =>
    .ok ((g.visits.filter (fun p => pyIn "units" p.1)).foldl collectAll [])

/-- Success test of an Except result. -/
def isOkE {ε : Type u} {α : Type v} : Except ε α → Bool
  | Except.ok _ => true
  | Except.error _ => false

/-- Attribute lookup at a path of the file tree. -/
def attrLookupAt (f : H5Node) (p : List String) (k : String) : Option PyVal :=
  (f.get p).bind (fun nd => alookup nd.attrsOf k)

section AssocLemmas

variable {α : Type u} {β : Type v} [DecidableEq α]

theorem alookup_aset_self (l : List (α × β)) (k : α) (v : β) :
    alookup (aset l k v) k = some v := by
  induction l with
  | nil => simp [aset, alookup]
  | cons kv rest ih =>
    by_cases h : kv.1 = k <;> simp [aset, alookup, h, ih]

theorem alookup_aset_ne (l : List (α × β)) (k k' : α) (v : β) (h : k ≠ k') :
    alookup (aset l k v) k' = alookup l k' := by
  induction l with
  | nil => simp [aset, alookup, h]
  | cons kv rest ih =>
    by_cases hk : kv.1 = k
    · simp [aset, alookup, hk, h]
    · simp only [aset, hk, if_false]
      by_cases hk' : kv.1 = k' <;> simp [alookup, hk', ih]

theorem aset_aset (l : List (α × β)) (k : α) (v w : β) :
    aset (aset l k v) k w = aset l k w := by
  induction l with
  | nil => simp [aset]
  | cons kv rest ih =>
    by_cases h : kv.1 = k <;> simp [aset, h, ih]

theorem aset_self (l : List (α × β)) (k : α) (c : β) (h : alookup l k = some c) :
    aset l k c = l := by
  induction l with
  | nil => simp [alookup] at h
  | cons kv rest ih =>
    obtain ⟨k1, v1⟩ := kv
    by_cases hk : k1 = k
    · subst hk
      simp [alookup] at h
      subst h
      simp [aset]
    · simp only [alookup, if_neg hk] at h
      simp [aset, hk, ih h]

theorem alookup_append (l l2 : List (α × β)) (k : α) :
    alookup (l ++ l2) k =
      match alookup l k with
      | some v => some v
      | none => alookup l2 k := by
  induction l with
  | nil => simp [alookup]
  | cons kv rest ih =>
    by_cases h : kv.1 = k <;> simp [alookup, h, ih]

theorem alookup_eq_none_of_not_mem (l : List (α × β)) (k : α)
    (h : k ∉ l.map Prod.fst) : alookup l k = none := by
  induction l with
  | nil => simp [alookup]
  | cons kv rest ih =>
    obtain ⟨k1, v1⟩ := kv
    simp only [List.map_cons, List.mem_cons] at h
    push_neg at h
    have h1 : ¬ (k1 = k) := fun he => h.1 he.symm
    simp [alookup, h1, ih h.2]

theorem alookup_aerase_self (l : List (α × β)) (k : α)
    (h : (l.map Prod.fst).Nodup) : alookup (aeraseKey l k) k = none := by
  induction l with
  | nil => simp [aeraseKey, alookup]
  | cons kv rest ih =>
    simp only [List.map_cons, List.nodup_cons] at h
    by_cases hk : kv.1 = k
    · subst hk
      simp only [aeraseKey, if_pos rfl]
      exact alookup_eq_none_of_not_mem rest kv.1 h.1
    · simp [aeraseKey, hk, alookup, ih h.2]

theorem aset_of_not_mem (l : List (α × β)) (k : α) (v : β)
    (h : alookup l k = none) : aset l k v = l ++ [(k, v)] := by
  induction l with
  | nil => simp [aset]
  | cons kv rest ih =>
    by_cases hk : kv.1 = k
    · simp [alookup, hk] at h
    · simp [alookup, hk] at h
      simp [aset, hk, ih h]

theorem mem_aset (l : List (α × β)) (k : α) (v : β) (x : α × β)
    (h : x ∈ aset l k v) : x ∈ l ∨ x = (k, v) := by
  induction l with
  | nil => simp [aset] at h; simp [h]
  | cons kv rest ih =>
    by_cases hk : kv.1 = k
    · simp [aset, hk] at h
      rcases h with h | h
      · right; simp [h]
      · left; simp [h]
    · simp [aset, hk] at h
      rcases h with h | h
      · left; simp [h]
      · rcases ih h with h2 | h2
        · left; simp [h2]
        · right; exact h2

end AssocLemmas

section TreeLemmas

theorem get_nil (f : H5Node) : f.get [] = some f := by
  cases f <;> rfl

theorem get_cons (a : List (String × PyVal)) (ch : List (String × H5Node))
    (n : String) (rest : List String) :
    (H5Node.group a ch).get (n :: rest) =
      match alookup ch n with
      | some c => c.get rest
      | none => none := rfl

theorem get_single (a : List (String × PyVal)) (ch : List (String × H5Node)) (n : String) :
    (H5Node.group a ch).get [n] = alookup ch n := by
  simp only [H5Node.get]
  cases alookup ch n <;> simp [H5Node.get]

theorem get_append (p : List String) :
    ∀ (q : List String) (f : H5Node),
      f.get (p ++ q) = (f.get p).bind (fun n => n.get q) := by
  induction p with
  | nil => intro q f; simp [H5Node.get]
  | cons n p' ih =>
    intro q f
    cases f with
    | dataset a d => simp [H5Node.get]
    | group a ch =>
      simp only [List.cons_append, H5Node.get]
      cases alookup ch n with
      | none => simp
      | some c => simp [ih]

theorem updAt_get (p : List String) :
    ∀ (f : H5Node) (h : H5Node → H5Node),
      (f.updAt p h).get p = (f.get p).map h := by
  induction p with
  | nil => intro f h; simp [H5Node.get, H5Node.updAt]
  | cons n p' ih =>
    intro f h
    cases f with
    | dataset a d => simp [H5Node.get, H5Node.updAt]
    | group a ch =>
      simp only [H5Node.updAt]
      cases hc : alookup ch n with
      | none => simp [H5Node.get, hc]
      | some c => simp [H5Node.get, alookup_aset_self, hc, ih]

theorem updAt_append (p : List String) :
    ∀ (q : List String) (f : H5Node) (h : H5Node → H5Node),
      f.updAt (p ++ q) h = f.updAt p (fun x => x.updAt q h) := by
  induction p with
  | nil => intro q f h; simp [H5Node.updAt]
  | cons n p' ih =>
    intro q f h
    cases f with
    | dataset a d => simp [H5Node.updAt]
    | group a ch =>
      simp only [List.cons_append, H5Node.updAt]
      cases hc : alookup ch n with
      | none => rfl
      | some c => simp [ih]

theorem updAt_updAt (p : List String) :
    ∀ (f : H5Node) (h h2 : H5Node → H5Node),
      (f.updAt p h).updAt p h2 = f.updAt p (fun x => h2 (h x)) := by
  induction p with
  | nil => intro f h h2; simp [H5Node.updAt]
  | cons n p' ih =>
    intro f h h2
    cases f with
    | dataset a d => simp [H5Node.updAt]
    | group a ch =>
      simp only [H5Node.updAt]
      cases hc : alookup ch n with
      | none => simp [H5Node.updAt, hc]
      | some c => simp [H5Node.updAt, alookup_aset_self, aset_aset, ih]

theorem createGroup_append_single (L : List String) :
    ∀ (f : H5Node) (a : List (String × PyVal)) (ch : List (String × H5Node)) (gn : String),
      f.get L = some (H5Node.group a ch) → alookup ch gn = none →
      f.createGroup (L ++ [gn]) =
        some (f.updAt L (H5Node.appendChild gn (H5Node.group [] []))) := by
  induction L with
  | nil =>
    intro f a ch gn hget hn
    simp only [H5Node.get, Option.some_inj] at hget
    subst hget
    simp [H5Node.createGroup, hn, H5Node.updAt, H5Node.appendChild]
  | cons x L' ih =>
    intro f a ch gn hget hn
    cases f with
    | dataset fa fd => simp [H5Node.get] at hget
    | group fa fch =>
      simp only [H5Node.get] at hget
      cases hc : alookup fch x with
      | none => simp [hc] at hget
      | some c =>
        simp only [hc] at hget
        cases L' with
        | nil =>
          simp only [H5Node.get, Option.some_inj] at hget
          subst hget
          simp [H5Node.createGroup, hc, hn, H5Node.updAt, H5Node.appendChild]
        | cons y L2 =>
          cases c with
          | dataset ca cd => simp [H5Node.get] at hget
          | group ca cch =>
            have hrec := ih (H5Node.group ca cch) a ch gn hget hn
            simp only [List.cons_append] at hrec ⊢
            simp [H5Node.createGroup, hc, hrec, H5Node.updAt]

end TreeLemmas

section StringLemmas

theorem isPrefixOf_self_append (p r : List Char) : p.isPrefixOf (p ++ r) = true := by
  induction p with
  | nil => simp [List.isPrefixOf]
  | cons c cs ih => simp [List.isPrefixOf, ih]

theorem isPrefixOf_append_of_isPrefixOf (p : List Char) :
    ∀ (q r : List Char), p.isPrefixOf q = true → p.isPrefixOf (q ++ r) = true := by
  induction p with
  | nil => intro q r _; simp [List.isPrefixOf]
  | cons c cs ih =>
    intro q r h
    cases q with
    | nil => simp [List.isPrefixOf] at h
    | cons b bs =>
      simp only [List.isPrefixOf, Bool.and_eq_true] at h
      simp [List.isPrefixOf, h.1, ih bs r h.2]

theorem dropFirstInfix_self_append (c : Char) (cs rest : List Char) :
    dropFirstInfix (c :: cs) ((c :: cs) ++ rest) = some rest := by
  simp [dropFirstInfix, isPrefixOf_self_append, List.drop_left]

theorem toList_append (s t : String) : (s ++ t).toList = s.toList ++ t.toList := by
  simp [String.toList, String.data_append]

theorem replaceFirst_results (g : String) :
    replaceFirst ("results/" ++ g) "results/" = g := by
  have h1 : ("results/" ++ g).toList = "results/".toList ++ g.toList :=
    toList_append "results/" g
  simp only [replaceFirst, h1]
  rw [show "results/".toList = 'r' :: "esults/".toList from rfl]
  rw [dropFirstInfix_self_append]
  cases g
  rfl

theorem pyStartsWith_results_append (g : String) :
    pyStartsWith ("results/" ++ g) "results" = true := by
  simp only [pyStartsWith, toList_append]
  apply isPrefixOf_append_of_isPrefixOf
  decide

end StringLemmas

section PairLemmas

variable {α : Type u}

theorem zipPairs_nil : zipPairs ([] : List α) = [] := rfl

theorem zipPairs_single (a : α) : zipPairs [a] = [] := rfl

theorem zipPairs_cons2 (a b : α) (r : List α) :
    zipPairs (a :: b :: r) = (a, b) :: zipPairs r := rfl

theorem zipPairs_odd : ∀ (l : List α), l.length % 2 = 1 → zipPairs l = zipPairs l.dropLast
  | [], h => by simp at h
  | [_], _ => rfl
  | a :: b :: r, h => by
    have hr : r.length % 2 = 1 := by
      simp only [List.length_cons] at h
      omega
    cases r with
    | nil => simp at hr
    | cons c r2 =>
      have hrec := zipPairs_odd (c :: r2) hr
      simp only [zipPairs_cons2, List.dropLast, hrec]

end PairLemmas

section FoldLemmas

theorem foldl_filter {α : Type u} {β : Type v} (q : α → Bool) (step : β → α → β) :
    ∀ (l : List α) (init : β),
      (l.filter q).foldl step init =
        l.foldl (fun acc x => if q x then step acc x else acc) init := by
  intro l
  induction l with
  | nil => intro init; rfl
  | cons a l2 ih =>
    intro init
    by_cases h : q a <;> simp [List.filter_cons, h, ih]

theorem foldl_aset_of_fresh {α : Type u} {β : Type v} [DecidableEq α] :
    ∀ (A acc : List (α × β)),
      (A.map Prod.fst).Nodup →
      (∀ k, k ∈ A.map Prod.fst → alookup acc k = none) →
      A.foldl (fun a kv => aset a kv.1 kv.2) acc = acc ++ A := by
  intro A
  induction A with
  | nil => intro acc _ _; simp
  | cons kv A2 ih =>
    intro acc hnd hfresh
    obtain ⟨k1, v1⟩ := kv
    simp only [List.map_cons, List.nodup_cons] at hnd
    have hk1 : alookup acc k1 = none := hfresh k1 (by simp)
    simp only [List.foldl_cons, aset_of_not_mem acc k1 v1 hk1]
    rw [ih (acc ++ [(k1, v1)]) hnd.2]
    · simp
    · intro k hk
      rw [alookup_append]
      rw [hfresh k (by simp [hk])]
      have hne : ¬ (k1 = k) := by
        intro he
        subst he
        exact hnd.1 hk
      simp [alookup, hne]

theorem mem_foldl_collect {α : Type u} {β : Type v} [DecidableEq α]
    (q : β → Bool) :
    ∀ (A : List (α × β)) (acc : List (α × β)),
      (∀ kv, kv ∈ acc → q kv.2 = true) →
      ∀ kv, kv ∈ A.foldl (fun a e => if q e.2 then aset a e.1 e.2 else a) acc →
        q kv.2 = true := by
  intro A
  induction A with
  | nil => intro acc hacc kv hkv; exact hacc kv hkv
  | cons e A2 ih =>
    intro acc hacc kv hkv
    simp only [List.foldl_cons] at hkv
    by_cases hq : q e.2
    · refine ih (aset acc e.1 e.2) ?_ kv (by simpa [hq] using hkv)
      intro kv2 hkv2
      rcases mem_aset acc e.1 e.2 kv2 hkv2 with h | h
      · exact hacc kv2 h
      · rw [h]; exact hq
    · exact ih acc hacc kv (by simpa [hq] using hkv)

end FoldLemmas

/-- Validity of the n_sequences argument in the words of the claim: None or a
nonnegative integer. -/
def validNSeq : PyArg → Bool
  | PyArg.none => true
  | PyArg.int k => decide (0 ≤ k)
  | _ => false

/-- Validity of the filter argument in the words of the claim: None or a
mapping. -/
def validFilter : PyArg → Bool
  | PyArg.none => true
  | PyArg.dict _ => true
  | _ => false

/-- C6: the remote dataframe fetch validates its inputs before any network
call: an n_sequences that is neither None nor a nonnegative integer, or a
filter that is neither None nor a mapping, raises with no transport call;
n_sequences = 0 is accepted and the command reaches the transport. -/
theorem C6_theorem :
    (∀ n ftr, validNSeq n = false → isOkE (data_fetch n ftr) = false) ∧
    (∀ n ftr, validFilter ftr = false → isOkE (data_fetch n ftr) = false) ∧
    isOkE (data_fetch (PyArg.int 0) PyArg.none) = true := by
  refine ⟨?_, ?_, by rfl⟩
  · intro n ftr hn
    cases n with
    | none => simp [validNSeq] at hn
    | int k =>
      simp only [validNSeq, decide_eq_false_iff_not, not_le] at hn
      have hk : ¬ (0 ≤ k) := by omega
      cases ftr <;> simp [data_fetch, isOkE, hk]
    | str s => cases ftr <;> simp [data_fetch, isOkE]
    | dict d => cases ftr <;> simp [data_fetch, isOkE]
  · intro n ftr hf
    cases ftr with
    | none => simp [validFilter] at hf
    | dict d => simp [validFilter] at hf
    | int k =>
      cases n with
      | none => simp [data_fetch, isOkE]
      | int m =>
        by_cases hm : (0 : Int) ≤ m <;> simp [data_fetch, isOkE, hm]
      | str s => simp [data_fetch, isOkE]
      | dict d2 => simp [data_fetch, isOkE]
    | str s =>
      cases n with
      | none => simp [data_fetch, isOkE]
      | int m =>
        by_cases hm : (0 : Int) ≤ m <;> simp [data_fetch, isOkE, hm]
      | str s2 => simp [data_fetch, isOkE]
      | dict d2 => simp [data_fetch, isOkE]

/-- Witness for C6 at concrete inputs: -1 and a string are rejected, an
integer filter is rejected. -/
theorem C6_witness :
    isOkE (data_fetch (PyArg.int (-1)) PyArg.none) = false ∧
    isOkE (data_fetch (PyArg.str "abc") PyArg.none) = false ∧
    isOkE (data_fetch (PyArg.int 0) (PyArg.int 3)) = false :=
  ⟨C6_theorem.1 (PyArg.int (-1)) PyArg.none (by decide),
   C6_theorem.1 (PyArg.str "abc") PyArg.none (by decide),
   C6_theorem.2.1 (PyArg.int 0) (PyArg.int 3) (by decide)⟩

/-- C10: save_results and save_result_arrays silently ignore a final
unpaired positional argument: a call with an odd number of arguments is the
same operation as the call without its last argument. -/
theorem C10_theorem (spinning : Bool) (upd : Upd) (run : Run) (f : H5Node)
    (args : List PyVal) (gArg : Option String) (ow ka : Bool)
    (hodd : args.length % 2 = 1) :
    Run.save_results spinning upd run f args gArg ow =
      Run.save_results spinning upd run f args.dropLast gArg ow ∧
    Run.save_result_arrays run f args gArg ow ka =
      Run.save_result_arrays run f args.dropLast gArg ow ka := by
  constructor
  · unfold Run.save_results
    rw [zipPairs_odd args hodd]
  · unfold Run.save_result_arrays
    rw [zipPairs_odd args hodd]

/-- Witness for C10 on a concrete three-argument call. -/
theorem C10_witness :
    Run.save_results false [] (Run.mk "shot1.h5" false "script")
        (H5Node.group [] [("results", H5Node.group [] [("script", H5Node.group [] [])])])
        [PyVal.str "x", PyVal.int 4, PyVal.int 7] none true =
      Run.save_results false [] (Run.mk "shot1.h5" false "script")
        (H5Node.group [] [("results", H5Node.group [] [("script", H5Node.group [] [])])])
        [PyVal.str "x", PyVal.int 4, PyVal.int 7].dropLast none true ∧
    Run.save_result_arrays (Run.mk "shot1.h5" false "script")
        (H5Node.group [] [("results", H5Node.group [] [("script", H5Node.group [] [])])])
        [PyVal.str "x", PyVal.int 4, PyVal.int 7] none true false =
      Run.save_result_arrays (Run.mk "shot1.h5" false "script")
        (H5Node.group [] [("results", H5Node.group [] [("script", H5Node.group [] [])])])
        [PyVal.str "x", PyVal.int 4, PyVal.int 7].dropLast none true false :=
  C10_theorem false [] (Run.mk "shot1.h5" false "script")
    (H5Node.group [] [("results", H5Node.group [] [("script", H5Node.group [] [])])])
    [PyVal.str "x", PyVal.int 4, PyVal.int 7] none true false (by rfl)

/-- C7: _create_group_if_not_exists is idempotent: under a resolvable
location, a first call never errors and opens the file in write mode exactly
when the group is absent; the second call returns the same file state with
zero write-mode opens, so at most one write-mode open happens across both
calls; a call finding the group present performs no write-mode open and
leaves the file untouched. -/
theorem C7_theorem (f : H5Node) (location groupname : String)
    (a : List (String × PyVal)) (ch : List (String × H5Node)) (gn : String)
    (hL : f.get (parsePath location) = some (H5Node.group a ch))
    (hG : parsePath groupname = [gn]) :
    ∃ f2 w1,
      Run.create_group_if_not_exists f location groupname = .ok (f2, w1) ∧
      Run.create_group_if_not_exists f2 location groupname = .ok (f2, 0) ∧
      w1 ≤ 1 ∧
      ((alookup ch gn).isSome = true → (w1 = 0 ∧ f2 = f)) := by
  cases halo : alookup ch gn with
  | some c =>
    refine ⟨f, 0, ?_, ?_, by omega, fun _ => ⟨rfl, rfl⟩⟩ <;>
      simp [Run.create_group_if_not_exists, hL, hG, get_single, halo]
  | none =>
    have hcr := createGroup_append_single (parsePath location) f a ch gn hL halo
    refine ⟨f.updAt (parsePath location)
        (H5Node.appendChild gn (H5Node.group [] [])), 1, ?_, ?_, by omega, ?_⟩
    · simp [Run.create_group_if_not_exists, hL, hG, get_single, halo, hcr]
    · have hget2 : (f.updAt (parsePath location)
          (H5Node.appendChild gn (H5Node.group [] []))).get (parsePath location) =
          some (H5Node.group a (ch ++ [(gn, H5Node.group [] [])])) := by
        rw [updAt_get, hL]
        rfl
      have halo2 : alookup (ch ++ [(gn, H5Node.group [] [])]) gn =
          some (H5Node.group [] []) := by
        rw [alookup_append, halo]
        simp [alookup]
      simp [Run.create_group_if_not_exists, hget2, hG, get_single, halo2]
    · intro hcontra
      simp at hcontra

/-- Witness for C7 on a concrete file: the group results exists at the root,
foo does not. -/
theorem C7_witness :
    ∃ f2 w1,
      Run.create_group_if_not_exists
        (H5Node.group [] [("results", H5Node.group [] [])]) "/" "foo" = .ok (f2, w1) ∧
      Run.create_group_if_not_exists f2 "/" "foo" = .ok (f2, 0) ∧
      w1 ≤ 1 ∧
      ((alookup [("results", H5Node.group [] [])] "foo").isSome = true →
        (w1 = 0 ∧ f2 = H5Node.group [] [("results", H5Node.group [] [])])) :=
  C7_theorem (H5Node.group [] [("results", H5Node.group [] [])]) "/" "foo"
    [] [("results", H5Node.group [] [])] "foo" (by rfl) (by rfl)

theorem attrsOf_withAttr (k : String) (v : PyVal) (nd : H5Node) :
    (H5Node.withAttr k v nd).attrsOf = aset nd.attrsOf k v := by
  cases nd <;> rfl

/-- Saving with overwrite false against an existing attribute raises with the
store untouched; with overwrite true the call succeeds and the attribute
holds exactly the new value afterwards.  The hypotheses place an existing
attribute at the resolved target group. -/
theorem save_result_overwrite (spinning : Bool) (upd : Upd) (run : Run) (f : H5Node)
    (name : String) (value w : PyVal) (gArg : Option String) (nd : H5Node)
    (hw : run.no_write = false)
    (hnode : f.get (parsePath (resolveGroupStr run gArg)) = some nd)
    (hex : alookup nd.attrsOf name = some w) :
    Run.save_result spinning upd run f name value gArg false =
      .error (attrExistsMsg name (resolveGroupStr run gArg), f, upd) ∧
    ∃ f2 u2, Run.save_result spinning upd run f name value gArg true = .ok (f2, u2) ∧
      attrLookupAt f2 (parsePath (resolveGroupStr run gArg)) name = some value := by
  have hcreated : (if optFalsy gArg then some f
      else if (f.get (parsePath (resolveGroupStr run gArg))).isSome then some f
      else f.createGroup (parsePath (resolveGroupStr run gArg))) = some f := by
    by_cases hf : optFalsy gArg = true
    · simp [hf]
    · simp only [Bool.not_eq_true] at hf
      simp [hf, hnode]
  constructor
  · simp [Run.save_result, hw, hcreated, hnode, hex]
  · have hlook : attrLookupAt
        (f.updAt (parsePath (resolveGroupStr run gArg)) (H5Node.withAttr name value))
        (parsePath (resolveGroupStr run gArg)) name = some value := by
      simp [attrLookupAt, updAt_get, hnode, attrsOf_withAttr, alookup_aset_self]
    have hok : ∃ u2, Run.save_result spinning upd run f name value gArg true =
        .ok (f.updAt (parsePath (resolveGroupStr run gArg)) (H5Node.withAttr name value), u2) := by
      by_cases hs : spinning = true
      · by_cases hst : pyStartsWith (resolveGroupStr run gArg) "results" = true
        · exact ⟨aset (ensureKey upd run.h5_path) run.h5_path
            (aset ((alookup (ensureKey upd run.h5_path) run.h5_path).getD [])
              (replaceFirst (resolveGroupStr run gArg) "results/", name) value),
            by simp [Run.save_result, hw, hcreated, hnode, hex, hs, hst]⟩
        · simp only [Bool.not_eq_true] at hst
          exact ⟨ensureKey upd run.h5_path,
            by simp [Run.save_result, hw, hcreated, hnode, hex, hs, hst]⟩
      · simp only [Bool.not_eq_true] at hs
        exact ⟨upd, by simp [Run.save_result, hw, hcreated, hnode, hex, hs]⟩
    obtain ⟨u2, hu2⟩ := hok
    exact ⟨_, u2, hu2, hlook⟩

/-- C3: an attribute write via save_result with overwrite false on an
existing name raises and leaves the stored contents exactly unchanged; the
same write with overwrite true succeeds and afterwards the attribute equals
exactly the new value. -/
theorem C3_theorem (spinning : Bool) (upd : Upd) (run : Run) (f : H5Node)
    (name : String) (value w : PyVal) (gArg : Option String) (nd : H5Node)
    (hw : run.no_write = false)
    (hnode : f.get (parsePath (resolveGroupStr run gArg)) = some nd)
    (hex : alookup nd.attrsOf name = some w) :
    Run.save_result spinning upd run f name value gArg false =
      .error (attrExistsMsg name (resolveGroupStr run gArg), f, upd) ∧
    ∃ f2 u2, Run.save_result spinning upd run f name value gArg true = .ok (f2, u2) ∧
      attrLookupAt f2 (parsePath (resolveGroupStr run gArg)) name = some value :=
  save_result_overwrite spinning upd run f name value w gArg nd hw hnode hex

/-- Witness for C3 on a concrete file whose results/script group has an
attribute x. -/
theorem C3_witness :
    Run.save_result false [] (Run.mk "shot1.h5" false "script")
        (H5Node.group [] [("results", H5Node.group []
          [("script", H5Node.group [("x", PyVal.int 1)] [])])])
        "x" (PyVal.int 2) none false =
      .error (attrExistsMsg "x"
          (resolveGroupStr (Run.mk "shot1.h5" false "script") none),
        H5Node.group [] [("results", H5Node.group []
          [("script", H5Node.group [("x", PyVal.int 1)] [])])], []) ∧
    ∃ f2 u2, Run.save_result false [] (Run.mk "shot1.h5" false "script")
        (H5Node.group [] [("results", H5Node.group []
          [("script", H5Node.group [("x", PyVal.int 1)] [])])])
        "x" (PyVal.int 2) none true = .ok (f2, u2) ∧
      attrLookupAt f2
        (parsePath (resolveGroupStr (Run.mk "shot1.h5" false "script") none)) "x" =
        some (PyVal.int 2) :=
  C3_theorem false [] (Run.mk "shot1.h5" false "script")
    (H5Node.group [] [("results", H5Node.group []
      [("script", H5Node.group [("x", PyVal.int 1)] [])])])
    "x" (PyVal.int 2) (PyVal.int 1) none
    (H5Node.group [("x", PyVal.int 1)] []) (by rfl) (by rfl) (by rfl)

/-- Saving a dataset with overwrite false against an existing name raises
with the store untouched; with overwrite true the delete-and-recreate path
succeeds. -/
theorem save_result_array_exists (run : Run) (f : H5Node) (name : String) (data : PyVal)
    (gArg : Option String) (ka : Bool)
    (a : List (String × PyVal)) (ch : List (String × H5Node)) (child : H5Node)
    (hw : run.no_write = false)
    (hnode : f.get (parsePath (resolveGroupStr run gArg)) = some (H5Node.group a ch))
    (hchild : alookup ch name = some child)
    (hnd : (ch.map Prod.fst).Nodup) :
    Run.save_result_array run f name data gArg false ka =
      .error (dsExistsMsg (resolveGroupStr run gArg) name, f) ∧
    ∃ f2, Run.save_result_array run f name data gArg true false = .ok f2 := by
  have hcreated : (if optFalsy gArg then some f
      else if (f.get (parsePath (resolveGroupStr run gArg))).isSome then some f
      else f.createGroup (parsePath (resolveGroupStr run gArg))) = some f := by
    by_cases hf : optFalsy gArg = true
    · simp [hf]
    · simp only [Bool.not_eq_true] at hf
      simp [hf, hnode]
  constructor
  · simp [Run.save_result_array, hw, hcreated, hnode, hchild]
  · have hrm : (f.updAt (parsePath (resolveGroupStr run gArg))
        (H5Node.removeChild name)).get (parsePath (resolveGroupStr run gArg)) =
        some (H5Node.group a (aeraseKey ch name)) := by
      rw [updAt_get, hnode]
      rfl
    have hcd : (f.updAt (parsePath (resolveGroupStr run gArg))
        (H5Node.removeChild name)).createDataset (parsePath (resolveGroupStr run gArg))
        name data =
        some ((f.updAt (parsePath (resolveGroupStr run gArg))
          (H5Node.removeChild name)).updAt (parsePath (resolveGroupStr run gArg))
          (H5Node.appendChild name (H5Node.dataset [] data))) := by
      simp [H5Node.createDataset, hrm, alookup_aerase_self ch name hnd]
    exact ⟨(f.updAt (parsePath (resolveGroupStr run gArg))
        (H5Node.removeChild name)).updAt (parsePath (resolveGroupStr run gArg))
        (H5Node.appendChild name (H5Node.dataset [] data)),
      by simp [Run.save_result_array, hw, hcreated, hnode, hchild, hcd]⟩

/-- C2 counterexample: with the default overwrite=True (the flag the caller
does not pass), save_result and save_result_array succeed against an
existing attribute and dataset instead of failing. -/
theorem C2_counterexample :
    isOkE (Run.save_result false [] (Run.mk "shot1.h5" false "script")
      (H5Node.group [] [("results", H5Node.group []
        [("script", H5Node.group [("x", PyVal.int 1)]
          [("d", H5Node.dataset [] (PyVal.arr [0]))])])])
      "x" (PyVal.int 9) none true) = true ∧
    isOkE (Run.save_result_array (Run.mk "shot1.h5" false "script")
      (H5Node.group [] [("results", H5Node.group []
        [("script", H5Node.group [("x", PyVal.int 1)]
          [("d", H5Node.dataset [] (PyVal.arr [0]))])])])
      "d" (PyVal.arr [1, 2]) none true false) = true := by
  exact ⟨by rfl, by rfl⟩

/-- C2 amended: the overwrite flag of save_result and save_result_array
defaults to True, so a call without the flag silently replaces an existing
attribute or dataset; only an explicit overwrite=False makes the operation
fail with nothing written. -/
theorem C2_theorem (spinning : Bool) (upd : Upd) (run : Run) (f : H5Node)
    (nameA nameD : String) (value data w : PyVal) (gArg : Option String) (ka : Bool)
    (a : List (String × PyVal)) (ch : List (String × H5Node)) (child : H5Node)
    (hw : run.no_write = false)
    (hnode : f.get (parsePath (resolveGroupStr run gArg)) = some (H5Node.group a ch))
    (hexA : alookup a nameA = some w)
    (hchild : alookup ch nameD = some child)
    (hnd : (ch.map Prod.fst).Nodup) :
    Run.save_result spinning upd run f nameA value gArg false =
      .error (attrExistsMsg nameA (resolveGroupStr run gArg), f, upd) ∧
    isOkE (Run.save_result spinning upd run f nameA value gArg true) = true ∧
    Run.save_result_array run f nameD data gArg false ka =
      .error (dsExistsMsg (resolveGroupStr run gArg) nameD, f) ∧
    isOkE (Run.save_result_array run f nameD data gArg true false) = true := by
  have hattr := save_result_overwrite spinning upd run f nameA value w gArg
    (H5Node.group a ch) hw hnode hexA
  have harr := save_result_array_exists run f nameD data gArg ka a ch child
    hw hnode hchild hnd
  refine ⟨hattr.1, ?_, harr.1, ?_⟩
  · obtain ⟨f2, u2, hok, _⟩ := hattr.2
    rw [hok]
    rfl
  · obtain ⟨f2, hok⟩ := harr.2
    rw [hok]
    rfl

/-- Witness for C2 on the same concrete file as the counterexample. -/
theorem C2_witness :
    Run.save_result false [] (Run.mk "shot1.h5" false "script")
      (H5Node.group [] [("results", H5Node.group []
        [("script", H5Node.group [("x", PyVal.int 1)]
          [("d", H5Node.dataset [] (PyVal.arr [0]))])])])
      "x" (PyVal.int 9) none false =
      .error (attrExistsMsg "x"
          (resolveGroupStr (Run.mk "shot1.h5" false "script") none),
        H5Node.group [] [("results", H5Node.group []
          [("script", H5Node.group [("x", PyVal.int 1)]
            [("d", H5Node.dataset [] (PyVal.arr [0]))])])], []) ∧
    isOkE (Run.save_result false [] (Run.mk "shot1.h5" false "script")
      (H5Node.group [] [("results", H5Node.group []
        [("script", H5Node.group [("x", PyVal.int 1)]
          [("d", H5Node.dataset [] (PyVal.arr [0]))])])])
      "x" (PyVal.int 9) none true) = true ∧
    Run.save_result_array (Run.mk "shot1.h5" false "script")
      (H5Node.group [] [("results", H5Node.group []
        [("script", H5Node.group [("x", PyVal.int 1)]
          [("d", H5Node.dataset [] (PyVal.arr [0]))])])])
      "d" (PyVal.arr [1, 2]) none false true =
      .error (dsExistsMsg (resolveGroupStr (Run.mk "shot1.h5" false "script") none) "d",
        H5Node.group [] [("results", H5Node.group []
          [("script", H5Node.group [("x", PyVal.int 1)]
            [("d", H5Node.dataset [] (PyVal.arr [0]))])])]) ∧
    isOkE (Run.save_result_array (Run.mk "shot1.h5" false "script")
      (H5Node.group [] [("results", H5Node.group []
        [("script", H5Node.group [("x", PyVal.int 1)]
          [("d", H5Node.dataset [] (PyVal.arr [0]))])])])
      "d" (PyVal.arr [1, 2]) none true false) = true :=
  C2_theorem false [] (Run.mk "shot1.h5" false "script")
    (H5Node.group [] [("results", H5Node.group []
      [("script", H5Node.group [("x", PyVal.int 1)]
        [("d", H5Node.dataset [] (PyVal.arr [0]))])])])
    "x" "d" (PyVal.int 9) (PyVal.arr [1, 2]) (PyVal.int 1) none true
    [("x", PyVal.int 1)] [("d", H5Node.dataset [] (PyVal.arr [0]))]
    (H5Node.dataset [] (PyVal.arr [0]))
    (by rfl) (by rfl) (by rfl) (by rfl) (by decide)

/-- C4 counterexample: save_results on a read-only Run with an empty
argument list returns successfully instead of raising (its pairing loop has
nothing to save, so the read-only check inside save_result never runs). -/
theorem C4_counterexample :
    isOkE (Run.save_results false [] (Run.mk "shot1.h5" true "script")
      (H5Node.group [] []) [] none true) = true := by
  rfl

/-- C4 amended: on a read-only Run, save_result and save_result_array always
raise the read-only failure before the file is opened, leaving file state
and pending updates exactly unchanged; save_results, save_result_arrays and
save_results_dict do so as soon as they attempt at least one save (at least
two positional arguments, resp. a nonempty dict), while an empty call
returns silently and still touches nothing. -/
theorem C4_theorem (spinning : Bool) (upd : Upd) (run : Run) (f : H5Node)
    (hro : run.no_write = true) :
    (∀ name value gArg ow,
      Run.save_result spinning upd run f name value gArg ow =
        .error (readOnlyMsg, f, upd)) ∧
    (∀ name data gArg ow ka,
      Run.save_result_array run f name data gArg ow ka = .error (readOnlyMsg, f)) ∧
    (∀ args gArg ow, 2 ≤ args.length →
      Run.save_results spinning upd run f args gArg ow =
        .error (readOnlyMsg, f, upd)) ∧
    (∀ args gArg ow ka, 2 ≤ args.length →
      Run.save_result_arrays run f args gArg ow ka = .error (readOnlyMsg, f)) ∧
    (∀ d unc gArg ow, d ≠ [] →
      ∃ m, Run.save_results_dict spinning upd run f d unc gArg ow =
        .error (m, f, upd)) := by
  refine ⟨?_, ?_, ?_, ?_, ?_⟩
  · intro name value gArg ow
    simp [Run.save_result, hro]
  · intro name data gArg ow ka
    simp [Run.save_result_array, hro]
  · intro args gArg ow hlen
    match args with
    | x :: y :: r =>
      cases x <;>
        simp [Run.save_results, zipPairs_cons2, saveResultsGo, Run.save_result, hro]
  · intro args gArg ow ka hlen
    match args with
    | x :: y :: r =>
      cases x <;>
        simp [Run.save_result_arrays, zipPairs_cons2, saveResultArraysGo,
          Run.save_result_array, hro]
  · intro d unc gArg ow hne
    match d with
    | (n, v) :: rest =>
      cases unc with
      | false =>
        exact ⟨readOnlyMsg,
          by simp [Run.save_results_dict, saveResultsDictGo, Run.save_result, hro]⟩
      | true =>
        cases v with
        | tup va vb =>
          exact ⟨readOnlyMsg,
            by simp [Run.save_results_dict, saveResultsDictGo, Run.save_result, hro]⟩
        | int k =>
          exact ⟨"TypeError: value is not subscriptable",
            by simp [Run.save_results_dict, saveResultsDictGo]⟩
        | str s =>
          exact ⟨"TypeError: value is not subscriptable",
            by simp [Run.save_results_dict, saveResultsDictGo]⟩
        | bool b =>
          exact ⟨"TypeError: value is not subscriptable",
            by simp [Run.save_results_dict, saveResultsDictGo]⟩
        | arr xs =>
          exact ⟨"TypeError: value is not subscriptable",
            by simp [Run.save_results_dict, saveResultsDictGo]⟩

/-- Witness for C4 on a concrete read-only Run with nonempty argument
lists. -/
theorem C4_witness :
    Run.save_result false [] (Run.mk "shot1.h5" true "script") (H5Node.group [] [])
        "x" (PyVal.int 1) none true =
      .error (readOnlyMsg, H5Node.group [] [], []) ∧
    Run.save_result_array (Run.mk "shot1.h5" true "script") (H5Node.group [] [])
        "d" (PyVal.arr [1]) none true false =
      .error (readOnlyMsg, H5Node.group [] []) ∧
    Run.save_results false [] (Run.mk "shot1.h5" true "script") (H5Node.group [] [])
        [PyVal.str "a", PyVal.int 2] none true =
      .error (readOnlyMsg, H5Node.group [] [], []) ∧
    Run.save_result_arrays (Run.mk "shot1.h5" true "script") (H5Node.group [] [])
        [PyVal.str "a", PyVal.int 2] none true false =
      .error (readOnlyMsg, H5Node.group [] []) ∧
    ∃ m, Run.save_results_dict false [] (Run.mk "shot1.h5" true "script")
        (H5Node.group [] []) [("k", PyVal.int 3)] false none true =
      .error (m, H5Node.group [] [], []) := by
  have T := C4_theorem false [] (Run.mk "shot1.h5" true "script")
    (H5Node.group [] []) (by rfl)
  exact ⟨T.1 "x" (PyVal.int 1) none true,
    T.2.1 "d" (PyVal.arr [1]) none true false,
    T.2.2.1 [PyVal.str "a", PyVal.int 2] none true (by decide),
    T.2.2.2.1 [PyVal.str "a", PyVal.int 2] none true false (by decide),
    T.2.2.2.2 [("k", PyVal.int 3)] false none true (by decide)⟩

/-- C5 counterexample: under the GUI flag, a successful save_result to the
explicit group calibration does not record (calibration, x) in the pending
updates; only an empty per-path entry is created. -/
theorem C5_counterexample :
    Run.save_result true [] (Run.mk "shot1.h5" false "script")
      (H5Node.group [] [("calibration", H5Node.group [] [])])
      "x" (PyVal.int 5) (some "calibration") true =
    .ok (H5Node.group [] [("calibration", H5Node.group [("x", PyVal.int 5)] [])],
      [("shot1.h5", [])]) := by
  rfl

/-- C5 amended: when running embedded in the GUI, a successful save_result
records (toplevel, name) to value in the pending-update state keyed by the
file path only when the resolved group string starts with results; the
default group always does, with toplevel equal to the Run group (the first
results/ removed); for an explicit group not starting with results, only an
empty pending entry for the path is ensured and no mapping is recorded. -/
theorem C5_theorem (upd : Upd) (run : Run) (f : H5Node) (name : String) (value : PyVal)
    (hw : run.no_write = false) :
    (∀ nd, f.get (parsePath ("results/" ++ run.group)) = some nd →
      ∃ f2 u2 inner,
        Run.save_result true upd run f name value none true = .ok (f2, u2) ∧
        alookup u2 run.h5_path = some inner ∧
        alookup inner (run.group, name) = some value) ∧
    (∀ g nd, pyStartsWith g "results" = false → g.isEmpty = false →
      f.get (parsePath g) = some nd →
      Run.save_result true upd run f name value (some g) true =
        .ok (f.updAt (parsePath g) (H5Node.withAttr name value),
          ensureKey upd run.h5_path)) := by
  constructor
  · intro nd hnode
    refine ⟨f.updAt (parsePath ("results/" ++ run.group)) (H5Node.withAttr name value),
      aset (ensureKey upd run.h5_path) run.h5_path
        (aset ((alookup (ensureKey upd run.h5_path) run.h5_path).getD [])
          (run.group, name) value),
      aset ((alookup (ensureKey upd run.h5_path) run.h5_path).getD [])
        (run.group, name) value,
      ?_, ?_, ?_⟩
    · simp [Run.save_result, hw, resolveGroupStr, optFalsy, hnode,
        pyStartsWith_results_append, replaceFirst_results]
    · exact alookup_aset_self (ensureKey upd run.h5_path) run.h5_path _
    · exact alookup_aset_self _ (run.group, name) value
  · intro g nd hst hne hnode
    have hfal : optFalsy (some g) = false := by simp [optFalsy, hne]
    have hres : resolveGroupStr run (some g) = g := by
      simp [resolveGroupStr, hfal]
    simp [Run.save_result, hw, hres, hfal, hnode, hst]

/-- Witness for C5: the default group stages the value, an explicit
calibration group does not. -/
theorem C5_witness :
    (∃ f2 u2 inner,
      Run.save_result true [] (Run.mk "shot1.h5" false "script")
        (H5Node.group [] [("results", H5Node.group [] [("script", H5Node.group [] [])]),
          ("calibration", H5Node.group [] [])])
        "x" (PyVal.int 5) none true = .ok (f2, u2) ∧
      alookup u2 "shot1.h5" = some inner ∧
      alookup inner ("script", "x") = some (PyVal.int 5)) ∧
    Run.save_result true [] (Run.mk "shot1.h5" false "script")
      (H5Node.group [] [("results", H5Node.group [] [("script", H5Node.group [] [])]),
        ("calibration", H5Node.group [] [])])
      "x" (PyVal.int 5) (some "calibration") true =
    .ok ((H5Node.group [] [("results", H5Node.group [] [("script", H5Node.group [] [])]),
        ("calibration", H5Node.group [] [])]).updAt (parsePath "calibration")
        (H5Node.withAttr "x" (PyVal.int 5)),
      ensureKey [] "shot1.h5") :=
  ⟨(C5_theorem [] (Run.mk "shot1.h5" false "script")
      (H5Node.group [] [("results", H5Node.group [] [("script", H5Node.group [] [])]),
        ("calibration", H5Node.group [] [])])
      "x" (PyVal.int 5) (by rfl)).1 (H5Node.group [] []) (by rfl),
   (C5_theorem [] (Run.mk "shot1.h5" false "script")
      (H5Node.group [] [("results", H5Node.group [] [("script", H5Node.group [] [])]),
        ("calibration", H5Node.group [] [])])
      "x" (PyVal.int 5) (by rfl)).2 "calibration" (H5Node.group [] [])
     (by rfl) (by rfl) (by rfl)⟩

theorem collectTruthy_inv (acc : List (String × PyVal)) (p : String × H5Node)
    (hacc : ∀ kv, kv ∈ acc → truthy kv.2 = true) :
    ∀ kv, kv ∈ collectTruthy acc p → truthy kv.2 = true :=
  mem_foldl_collect truthy p.2.attrsOf acc hacc

theorem expansion_fold_inv (l : List (String × H5Node)) :
    ∀ acc, (∀ kv, kv ∈ acc → truthy kv.2 = true) →
      ∀ kv, kv ∈ l.foldl
        (fun acc2 p => if pyIn "expansion" p.1 then collectTruthy acc2 p else acc2) acc →
        truthy kv.2 = true := by
  induction l with
  | nil => intro acc hacc kv hkv; exact hacc kv hkv
  | cons p l2 ih =>
    intro acc hacc kv hkv
    simp only [List.foldl_cons] at hkv
    by_cases hq : pyIn "expansion" p.1 = true
    · exact ih (collectTruthy acc p) (collectTruthy_inv acc p hacc) kv
        (by simpa [hq] using hkv)
    · simp only [Bool.not_eq_true] at hq
      exact ih acc hacc kv (by simpa [hq] using hkv)

/-- C9: get_globals_expansion and get_units walk every group and dataset
under globals and collect exactly the attributes of the objects whose
relative path contains the literal substring expansion (resp. units);
expansion keeps only truthy values (third conjunct), units keeps every
value.  The walk-then-filter reading of the spec coincides with the
filtering fold of the code. -/
theorem C9_theorem (f : H5Node) :
    Run.get_globals_expansion f = expansionSpec f ∧
    Run.get_units f = unitsSpec f ∧
    (∀ res kv, Run.get_globals_expansion f = .ok res → kv ∈ res →
      truthy kv.2 = true) := by
  refine ⟨?_, ?_, ?_⟩
  · unfold Run.get_globals_expansion expansionSpec
    cases f.get ["globals"] with
    | none => rfl
    | some g => simp [foldl_filter]
  · unfold Run.get_units unitsSpec
    cases f.get ["globals"] with
    | none => rfl
    | some g => simp [foldl_filter]
  · intro res kv hok hmem
    unfold Run.get_globals_expansion at hok
    cases hg : f.get ["globals"] with
    | none => rw [hg] at hok; exact absurd hok (by simp)
    | some g =>
      rw [hg] at hok
      simp only [Except.ok.injEq] at hok
      subst hok
      exact expansion_fold_inv g.visits [] (by simp) kv hmem

/-- Witness for C9: on a concrete globals tree the collected expansion value
is truthy. -/
theorem C9_witness : truthy (PyVal.str "outer") = true :=
  (C9_theorem (H5Node.group [] [("globals", H5Node.group []
      [("expansion_grp", H5Node.group
          [("amp", PyVal.str "outer"), ("zero", PyVal.str "")] []),
        ("units_grp", H5Node.group [("amp", PyVal.str "V")] [])])])).2.2
    [("amp", PyVal.str "outer")] ("amp", PyVal.str "outer") (by rfl) (by simp)

theorem aset_append_left_none {α : Type u} {β : Type v} [DecidableEq α]
    (l l2 : List (α × β)) (k : α) (v : β) (h : alookup l k = none) :
    aset (l ++ l2) k v = l ++ aset l2 k v := by
  induction l with
  | nil => simp
  | cons kv rest ih =>
    obtain ⟨k1, v1⟩ := kv
    by_cases hk : k1 = k
    · simp [alookup, hk] at h
    · simp only [alookup, if_neg hk] at h
      simp [aset, hk, ih h]

theorem updAt_id (p : List String) : ∀ f : H5Node, f.updAt p (fun x => x) = f := by
  induction p with
  | nil => intro f; cases f <;> rfl
  | cons n p2 ih =>
    intro f
    cases f with
    | dataset a d => rfl
    | group a ch =>
      simp only [H5Node.updAt]
      cases hc : alookup ch n with
      | none => rfl
      | some c => simp [ih c, aset_self ch n c hc]

theorem foldl_updAt_collapse (p2 : List String) (A : List (String × PyVal)) :
    ∀ f3 : H5Node,
      A.foldl (fun acc kv => acc.updAt p2 (H5Node.withAttr kv.1 kv.2)) f3 =
        f3.updAt p2
          (fun x => A.foldl (fun nd kv => H5Node.withAttr kv.1 kv.2 nd) x) := by
  induction A with
  | nil => intro f3; simp [updAt_id]
  | cons kv A2 ih =>
    intro f3
    simp only [List.foldl_cons]
    rw [ih, updAt_updAt]

theorem foldl_withAttr_dataset (A : List (String × PyVal)) :
    ∀ (B : List (String × PyVal)) (d : PyVal),
      A.foldl (fun nd kv => H5Node.withAttr kv.1 kv.2 nd) (H5Node.dataset B d) =
        H5Node.dataset (A.foldl (fun b kv => aset b kv.1 kv.2) B) d := by
  induction A with
  | nil => intro B d; rfl
  | cons kv A2 ih =>
    intro B d
    simp only [List.foldl_cons, H5Node.withAttr]
    exact ih (aset B kv.1 kv.2) d

/-- After replacing the analysis group node below results by F, the written
dataset reads back: get_result_array returns its payload and the dataset
node carries exactly the attributes F installed. -/
theorem read_after_updAt (f : H5Node) (gname name : String) (F : H5Node → H5Node)
    (ra a A2 : List (String × PyVal)) (rch ch ch2 : List (String × H5Node)) (data : PyVal)
    (hq : parsePath gname = [gname])
    (hres : f.get ["results"] = some (H5Node.group ra rch))
    (hrch : alookup rch gname = some (H5Node.group a ch))
    (hF : F (H5Node.group a ch) =
      H5Node.group a (ch2 ++ [(name, H5Node.dataset A2 data)]))
    (hch2 : alookup ch2 name = none) :
    Run.get_result_array (f.updAt ["results", gname] F) gname name = .ok data ∧
    (f.updAt ["results", gname] F).get ["results", gname, name] =
      some (H5Node.dataset A2 data) := by
  have hupd : f.updAt ["results", gname] F =
      f.updAt ["results"] (fun x => x.updAt [gname] F) := by
    rw [show (["results", gname] : List String) = ["results"] ++ [gname] from rfl,
      updAt_append]
  have hnode1 : (H5Node.group ra rch).updAt [gname] F =
      H5Node.group ra (aset rch gname
        (H5Node.group a (ch2 ++ [(name, H5Node.dataset A2 data)]))) := by
    simp [H5Node.updAt, hrch, hF]
  have hnoderes : (f.updAt ["results", gname] F).get ["results"] =
      some (H5Node.group ra (aset rch gname
        (H5Node.group a (ch2 ++ [(name, H5Node.dataset A2 data)])))) := by
    rw [hupd, updAt_get, hres]
    simp [hnode1]
  have hget1 : (H5Node.group ra (aset rch gname
      (H5Node.group a (ch2 ++ [(name, H5Node.dataset A2 data)])))).get [gname] =
      some (H5Node.group a (ch2 ++ [(name, H5Node.dataset A2 data)])) := by
    rw [get_single]
    exact alookup_aset_self rch gname _
  have hget2 : (H5Node.group a (ch2 ++ [(name, H5Node.dataset A2 data)])).get [name] =
      some (H5Node.dataset A2 data) := by
    rw [get_single, alookup_append, hch2]
    simp [alookup]
  constructor
  · simp [Run.get_result_array, hnoderes, hq, hget1, get_cons,
      alookup_aset_self, hget2]
  · rw [show (["results", gname, name] : List String) =
      ["results"] ++ ([gname] ++ [name]) from rfl, get_append, hnoderes]
    simp [get_cons, alookup_aset_self, hget2]

/-- C8: on a writable Run, saving an array with save_result_array under the
default group and reading it back with get_result_array yields exactly the
written payload, whether or not a dataset of that name already existed; and
an overwrite with keep_attrs preserves all attributes previously attached to
the dataset unchanged. -/
theorem C8_theorem (run : Run) (f : H5Node) (name : String) (data : PyVal)
    (a : List (String × PyVal)) (ch : List (String × H5Node))
    (hw : run.no_write = false)
    (hp : parsePath ("results/" ++ run.group) = ["results", run.group])
    (hq : parsePath run.group = [run.group])
    (hg : f.get ["results", run.group] = some (H5Node.group a ch))
    (hnd : (ch.map Prod.fst).Nodup) :
    (∃ f2, Run.save_result_array run f name data none true false = .ok f2 ∧
      Run.get_result_array f2 run.group name = .ok data) ∧
    (∀ A d0, alookup ch name = some (H5Node.dataset A d0) →
      (A.map Prod.fst).Nodup →
      ∃ f2, Run.save_result_array run f name data none true true = .ok f2 ∧
        f2.get ["results", run.group, name] = some (H5Node.dataset A data) ∧
        Run.get_result_array f2 run.group name = .ok data) := by
  have hsplit : (f.get ["results"]).bind (fun x => x.get [run.group]) =
      some (H5Node.group a ch) := by
    rw [← get_append]
    exact hg
  obtain ⟨rnode, hres0⟩ : ∃ r, f.get ["results"] = some r := by
    cases hr : f.get ["results"] with
    | none => rw [hr] at hsplit; simp at hsplit
    | some r => exact ⟨r, rfl⟩
  rw [hres0] at hsplit
  simp only [Option.some_bind] at hsplit
  cases rnode with
  | dataset rda rdd => simp [H5Node.get] at hsplit
  | group ra rch =>
    rw [get_single] at hsplit
    have hres0' : resolveGroupStr run none = "results/" ++ run.group := by
      simp [resolveGroupStr, optFalsy]
    constructor
    · cases halo : alookup ch name with
      | none =>
        have hcd : f.createDataset ["results", run.group] name data =
            some (f.updAt ["results", run.group]
              (H5Node.appendChild name (H5Node.dataset [] data))) := by
          simp [H5Node.createDataset, hg, halo]
        have hread := read_after_updAt f run.group name
          (H5Node.appendChild name (H5Node.dataset [] data)) ra a [] rch ch ch data
          hq hres0 hsplit (by rfl) halo
        refine ⟨_, ?_, hread.1⟩
        simp [Run.save_result_array, hw, hres0', hp, hg, halo, hcd]
      | some child =>
        have hrm : (f.updAt ["results", run.group] (H5Node.removeChild name)).get
            ["results", run.group] = some (H5Node.group a (aeraseKey ch name)) := by
          rw [updAt_get, hg]
          rfl
        have hcd : (f.updAt ["results", run.group]
            (H5Node.removeChild name)).createDataset
            ["results", run.group] name data =
            some ((f.updAt ["results", run.group] (H5Node.removeChild name)).updAt
              ["results", run.group]
              (H5Node.appendChild name (H5Node.dataset [] data))) := by
          simp [H5Node.createDataset, hrm, alookup_aerase_self ch name hnd]
        have hchain : (f.updAt ["results", run.group] (H5Node.removeChild name)).updAt
            ["results", run.group] (H5Node.appendChild name (H5Node.dataset [] data)) =
            f.updAt ["results", run.group]
              (fun x => H5Node.appendChild name (H5Node.dataset [] data)
                (H5Node.removeChild name x)) :=
          updAt_updAt ["results", run.group] f _ _
        have hread := read_after_updAt f run.group name
          (fun x => H5Node.appendChild name (H5Node.dataset [] data)
            (H5Node.removeChild name x))
          ra a [] rch ch (aeraseKey ch name) data hq hres0 hsplit (by rfl)
          (alookup_aerase_self ch name hnd)
        refine ⟨_, ?_, hread.1⟩
        have hsave : Run.save_result_array run f name data none true false =
            .ok ((f.updAt ["results", run.group] (H5Node.removeChild name)).updAt
              ["results", run.group]
              (H5Node.appendChild name (H5Node.dataset [] data))) := by
          simp [Run.save_result_array, hw, hres0', hp, hg, halo, hcd]
        rw [hsave, hchain]
    · intro A d0 hchild hndA
      have hrm : (f.updAt ["results", run.group] (H5Node.removeChild name)).get
          ["results", run.group] = some (H5Node.group a (aeraseKey ch name)) := by
        rw [updAt_get, hg]
        rfl
      have hcd : (f.updAt ["results", run.group]
          (H5Node.removeChild name)).createDataset
          ["results", run.group] name data =
          some ((f.updAt ["results", run.group] (H5Node.removeChild name)).updAt
            ["results", run.group]
            (H5Node.appendChild name (H5Node.dataset [] data))) := by
        simp [H5Node.createDataset, hrm, alookup_aerase_self ch name hnd]
      have hchain : (f.updAt ["results", run.group] (H5Node.removeChild name)).updAt
          ["results", run.group] (H5Node.appendChild name (H5Node.dataset [] data)) =
          f.updAt ["results", run.group]
            (fun x => H5Node.appendChild name (H5Node.dataset [] data)
              (H5Node.removeChild name x)) :=
        updAt_updAt ["results", run.group] f _ _
      have halo2 : alookup (aeraseKey ch name ++ [(name, H5Node.dataset [] data)]) name =
          some (H5Node.dataset [] data) := by
        rw [alookup_append, alookup_aerase_self ch name hnd]
        simp [alookup]
      have hfold2 : A.foldl (fun nd kv => H5Node.withAttr kv.1 kv.2 nd)
          (H5Node.dataset [] data) = H5Node.dataset A data := by
        rw [foldl_withAttr_dataset]
        rw [foldl_aset_of_fresh A [] hndA (by intro k hk; simp [alookup])]
        simp
      have hF : (fun x => (H5Node.appendChild name (H5Node.dataset [] data)
            (H5Node.removeChild name x)).updAt [name]
            (fun y => A.foldl (fun nd kv => H5Node.withAttr kv.1 kv.2 nd) y))
          (H5Node.group a ch) =
          H5Node.group a (aeraseKey ch name ++ [(name, H5Node.dataset A data)]) := by
        show (H5Node.group a (aeraseKey ch name ++
            [(name, H5Node.dataset [] data)])).updAt [name]
            (fun y => A.foldl (fun nd kv => H5Node.withAttr kv.1 kv.2 nd) y) =
          H5Node.group a (aeraseKey ch name ++ [(name, H5Node.dataset A data)])
        simp only [H5Node.updAt, halo2, hfold2]
        rw [aset_append_left_none _ _ _ _ (alookup_aerase_self ch name hnd)]
        simp [aset]
      have hread := read_after_updAt f run.group name
        (fun x => (H5Node.appendChild name (H5Node.dataset [] data)
          (H5Node.removeChild name x)).updAt [name]
          (fun y => A.foldl (fun nd kv => H5Node.withAttr kv.1 kv.2 nd) y))
        ra a A rch ch (aeraseKey ch name) data hq hres0 hsplit hF
        (alookup_aerase_self ch name hnd)
      refine ⟨_, ?_, hread.2, hread.1⟩
      have hsave : Run.save_result_array run f name data none true true =
          .ok (A.foldl (fun acc kv => acc.updAt ["results", run.group, name]
            (H5Node.withAttr kv.1 kv.2))
            ((f.updAt ["results", run.group] (H5Node.removeChild name)).updAt
              ["results", run.group]
              (H5Node.appendChild name (H5Node.dataset [] data)))) := by
        simp [Run.save_result_array, hw, hres0', hp, hg, hchild, hcd, H5Node.attrsOf]
      rw [hsave, foldl_updAt_collapse, hchain,
        show (["results", run.group, name] : List String) =
          ["results", run.group] ++ [name] from rfl, updAt_append, updAt_updAt]

/-- Witness for C8 on a concrete writable Run: a fresh dataset d reads back
bit-identically, and overwriting the existing dataset old with keep_attrs
preserves its unit attribute. -/
theorem C8_witness :
    (∃ f2, Run.save_result_array (Run.mk "shot1.h5" false "script")
        (H5Node.group [] [("results", H5Node.group [] [("script", H5Node.group []
          [("old", H5Node.dataset [("unit", PyVal.str "V")] (PyVal.arr [7]))])])])
        "d" (PyVal.arr [1, 2]) none true false = .ok f2 ∧
      Run.get_result_array f2 "script" "d" = .ok (PyVal.arr [1, 2])) ∧
    (∃ f2, Run.save_result_array (Run.mk "shot1.h5" false "script")
        (H5Node.group [] [("results", H5Node.group [] [("script", H5Node.group []
          [("old", H5Node.dataset [("unit", PyVal.str "V")] (PyVal.arr [7]))])])])
        "old" (PyVal.arr [9]) none true true = .ok f2 ∧
      f2.get ["results", "script", "old"] =
        some (H5Node.dataset [("unit", PyVal.str "V")] (PyVal.arr [9])) ∧
      Run.get_result_array f2 "script" "old" = .ok (PyVal.arr [9])) :=
  ⟨(C8_theorem (Run.mk "shot1.h5" false "script")
      (H5Node.group [] [("results", H5Node.group [] [("script", H5Node.group []
        [("old", H5Node.dataset [("unit", PyVal.str "V")] (PyVal.arr [7]))])])])
      "d" (PyVal.arr [1, 2]) []
      [("old", H5Node.dataset [("unit", PyVal.str "V")] (PyVal.arr [7]))]
      (by rfl) (by rfl) (by rfl) (by rfl) (by decide)).1,
   (C8_theorem (Run.mk "shot1.h5" false "script")
      (H5Node.group [] [("results", H5Node.group [] [("script", H5Node.group []
        [("old", H5Node.dataset [("unit", PyVal.str "V")] (PyVal.arr [7]))])])])
      "old" (PyVal.arr [9]) []
      [("old", H5Node.dataset [("unit", PyVal.str "V")] (PyVal.arr [7]))]
      (by rfl) (by rfl) (by rfl) (by rfl) (by decide)).2
     [("unit", PyVal.str "V")] (PyVal.arr [7]) (by rfl) (by decide)⟩

/-- A Run whose file lacks the full data/traces/name path fails in
get_trace. -/
theorem run_get_trace_missing (f : H5Node) (name : String)
    (h : f.get ["data", "traces", name] = none) :
    isOkE (Run.get_trace f name) = false := by
  rw [show (["data", "traces", name] : List String) =
    ["data"] ++ (["traces"] ++ [name]) from rfl, get_append] at h
  cases hd : f.get ["data"] with
  | none => simp [Run.get_trace, hd, isOkE]
  | some dn =>
    rw [hd, Option.some_bind, get_append] at h
    cases ht : dn.get ["traces"] with
    | none => simp [Run.get_trace, hd, ht, isOkE]
    | some tn =>
      rw [ht, Option.some_bind] at h
      simp [Run.get_trace, hd, ht, h, isOkE]

/-- C1 counterexample: a Sequence of three member runs whose files have no
data group at all fails in get_trace instead of returning an empty
per-member structure. -/
theorem C1_counterexample :
    isOkE (Sequence.get_trace
      [("shot1.h5", H5Node.group [] []), ("shot2.h5", H5Node.group [] []),
        ("shot3.h5", H5Node.group [] [])] "foo") = false := by
  rfl

/-- C1 amended: when any member Run of a Sequence lacks the named trace
(including when the file has no data/traces group at all),
Sequence.get_trace propagates the member failure rather than returning an
empty structure for that member. -/
theorem C1_theorem (runs : List (String × H5Node)) (name p : String) (f : H5Node)
    (hmem : (p, f) ∈ runs) (hmiss : f.get ["data", "traces", name] = none) :
    isOkE (Sequence.get_trace runs name) = false := by
  induction runs with
  | nil => simp at hmem
  | cons pf rest ih =>
    obtain ⟨p2, f2⟩ := pf
    rcases List.mem_cons.mp hmem with h | h
    · injection h with h1 h2
      subst h1
      subst h2
      have hm := run_get_trace_missing f name hmiss
      simp only [Sequence.get_trace]
      cases he : Run.get_trace f name with
      | error e => simp [isOkE]
      | ok tv => rw [he] at hm; simp [isOkE] at hm
    · simp only [Sequence.get_trace]
      cases he : Run.get_trace f2 name with
      | error e => simp [isOkE]
      | ok tv =>
        have hrest := ih h
        cases hs : Sequence.get_trace rest name with
        | error e => simp [isOkE]
        | ok xs => rw [hs] at hrest; simp [isOkE] at hrest

/-- Witness for C1 on a singleton Sequence whose member lacks the trace. -/
theorem C1_witness :
    isOkE (Sequence.get_trace [("shot1.h5",
      H5Node.group [] [("data", H5Node.group [] [("traces", H5Node.group [] [])])])]
      "foo") = false :=
  C1_theorem [("shot1.h5",
      H5Node.group [] [("data", H5Node.group [] [("traces", H5Node.group [] [])])])]
    "foo" "shot1.h5"
    (H5Node.group [] [("data", H5Node.group [] [("traces", H5Node.group [] [])])])
    (by simp) (by rfl)

end Lyse
